import Mathlib

/-!
Verification of the JSON schema converter (convert_schema.py).

The development shallowly embeds the converter: parsed JSON documents
become the inductive type JsonValue (Python dicts are association lists
in insertion order), Python exceptions become the explicit error type
PyError, and every recursive walk of the source is translated to a
structurally recursive Lean function.  The recursion-depth limit of the
Python runtime is modelled by an explicit fuel argument where the source
recursion is not structurally bounded; running out of fuel is the
explicit error PyError.recursionError.
-/

/-- A parsed JSON value.  Objects keep insertion order, like Python dicts. -/
inductive JsonValue where
  | str (s : String)
  | num (n : Int)
  | bool (b : Bool)
  | null
  | arr (items : List JsonValue)
  | obj (entries : List (String × JsonValue))

/-- Whether a JsonValue is an object (Python isinstance(v, dict)). -/
def JsonValue.isObj : JsonValue → Bool
  | .obj _ => true
  | _ => false

/-- Python exceptions raised by the converter. -/
inductive PyError where
  | unknownType (msg : String) (typeName : String)
  | runtimeError (msg : String)
  | keyError (key : String)
  | typeError (msg : String)
  | indexError (idx : Nat)
  | assertionError
  | recursionError

/-- Dictionary lookup on an association list (Python d[k] / d.get(k)). -/
def dlookup {α : Type} : List (String × α) → String → Option α
  | [], _ => none
  | (k, v) :: rest, key => if k = key then some v else dlookup rest key

/-- Dictionary assignment d[k] = v: replace in place, else append. -/
def dset {α : Type} : List (String × α) → String → α → List (String × α)
  | [], key, val => [(key, val)]
  | (k, v) :: rest, key, val =>
    if k = key then (k, val) :: rest else (k, v) :: dset rest key val

/-- Dictionary deletion del d[k]: drop the first binding of the key. -/
def derase {α : Type} : List (String × α) → String → List (String × α)
  | [], _ => []
  | (k, v) :: rest, key => if k = key then rest else (k, v) :: derase rest key

/-- Python membership test k in d. -/
def dcontains {α : Type} (l : List (String × α)) (key : String) : Bool :=
  (dlookup l key).isSome

/-- Python d.update(other): assign every binding of other into d, in order. -/
def dupdate {α : Type} (base other : List (String × α)) : List (String × α) :=
  other.foldl (fun b kv => dset b kv.1 kv.2) base

/-- Python set insertion s.add(x) on a set modelled as a duplicate-free list. -/
def sadd (s : List String) (x : String) : List String :=
  if x ∈ s then s else s ++ [x]

/-- Python s.endswith("/"), computed on the character list so that it
reduces definitionally. -/
def endsWithSlash (s : String) : Bool :=
  s.data.getLast? == some '/'

/-- A left fold that stops at the first error, like a Python for loop
over statements that may raise. -/
def exceptFoldl {α β : Type} (f : β → α → Except PyError β) :
    β → List α → Except PyError β
  | acc, [] => .ok acc
  | acc, x :: rest =>
    match f acc x with
    | .ok acc2 => exceptFoldl f acc2 rest
    | .error e => .error e

/-- The standard JSON schema type tokens (JSON_SCHEMA_TYPES). -/
def JSON_SCHEMA_TYPES : List String :=
  ["string", "number", "boolean", "null", "object", "array", "integer"]

/-- The native BSON type tokens (MONGO_BSON_TYPES). -/
def MONGO_BSON_TYPES : List String :=
  ["string", "number", "bool", "null", "object", "array", "int", "long",
   "double", "date", "timestamp", "objectId", "binData"]

/-- The built-in definitions table (BUILTIN_DEFINITIONS), carrying the
alternative JSON-flavoured bodies for binData, date and objectId. -/
def BUILTIN_DEFINITIONS : List (String × JsonValue) :=
  [("alt_definitions", .obj
    [("json", .obj
      [("binData", .obj
        [("type", .str "object"),
         ("required", .arr [.str "$binary", .str "$type"]),
         ("properties", .obj
          [("$binary", .obj
            [("type", .str "string"),
             ("pattern", .str "^[=0-9A-Za-z+/]*$")]),
           ("$type", .obj
            [("type", .str "string"),
             ("pattern", .str "^[0-9A-Za-z]\x7b1,2\x7d$")])]),
         ("additionalProperties", .bool false)]),
       ("date", .obj
        [("type", .str "object"),
         ("required", .arr [.str "$date"]),
         ("properties", .obj
          [("$date", .obj
            [("type", .str "string"),
             ("pattern", .str
              "^[0-9]\x7b4\x7d-[0-9]\x7b2\x7d-[0-9]\x7b2\x7dT[0-9]\x7b2\x7d:[0-9]\x7b2\x7d:[0-9]\x7b2\x7d(\\.[0-9]\x7b3\x7d)?Z$")])]),
         ("additionalProperties", .bool false)]),
       ("objectId", .obj
        [("type", .str "object"),
         ("required", .arr [.str "$oid"]),
         ("properties", .obj
          [("$oid", .obj
            [("type", .str "string"),
             ("pattern", .str "^[0-9A-Fa-f]\x7b24\x7d$")])]),
         ("additionalProperties", .bool false)])])])]

/-- The _merge_definitions helper: merge the definitions key and the
matching alternate-definitions bucket of raw into defs. -/
def mergeDefinitions (defs : List (String × JsonValue))
    (raw : List (String × JsonValue)) (type_ : String) :
    Except PyError (List (String × JsonValue)) :=
  let step1 : Except PyError (List (String × JsonValue)) :=
    match dlookup raw "definitions" with
    | some (.obj d) => Except.ok (dupdate defs d)
    | some _ => Except.error (.typeError "definitions is not an object")
    | none => Except.ok defs
  match step1 with
  | .error e => .error e
  | .ok defs1 =>
    match dlookup raw "alt_definitions" with
    | some (.obj alts) =>
      match dlookup alts type_ with
      | some (.obj d2) => .ok (dupdate defs1 d2)
      | some _ => .error (.typeError "alternate definitions are not an object")
      | none => .ok defs1
    | some _ => .error (.typeError "alt_definitions is not an object")
    | none => .ok defs1

/-- The type of a target-specific convert_type method: it receives the
converter state, the value of the type key, the source path and the
object path, and returns the updated state together with the key/value
pairs spliced into the result. -/
def TypeResolver (σ : Type) : Type :=
  σ → JsonValue → String → List String → Except PyError (σ × List (String × JsonValue))

/-- The type of the object-conversion callback threaded through the
structural helpers below. -/
def ObjectConverter (σ : Type) : Type :=
  σ → JsonValue → String → List String → Except PyError (σ × List (String × JsonValue))

/-- SchemaConverter.convert_inner_type: convert every child of an object
through the given object converter, extending both paths with the key. -/
def convertInnerTypeWith {σ : Type} (co : ObjectConverter σ) (st : σ)
    (o : JsonValue) (srcPath : String) (objPath : List String) :
    Except PyError (σ × List (String × JsonValue)) :=
  match o with
  | .obj entries =>
    let sp := if endsWithSlash srcPath then srcPath else srcPath ++ "/"
    exceptFoldl (fun acc kv =>
      match co acc.1 kv.2 (sp ++ kv.1) (objPath ++ [kv.1]) with
      | .ok (st2, conv) => .ok (st2, dset acc.2 kv.1 (.obj conv))
      | .error e => .error e) (st, []) entries
  | _ => .error (.runtimeError ("Non-object type encountered when parsing " ++ srcPath))

/-- SchemaConverter.convert_array: convert every element of an array
through the given object converter, indexing the source path. -/
def convertArrayWith {σ : Type} (co : ObjectConverter σ) (st : σ)
    (a : JsonValue) (srcPath : String) (objPath : List String) :
    Except PyError (σ × List JsonValue) :=
  match a with
  | .arr items =>
    match exceptFoldl (fun acc v =>
        match co acc.1 v (srcPath ++ "[" ++ toString acc.2.2 ++ "]") objPath with
        | .ok (st2, conv) => .ok (st2, (acc.2.1 ++ [JsonValue.obj conv], acc.2.2 + 1))
        | .error e => .error e) (st, ([], (0 : Nat))) items with
    | .ok (st2, lst, _) => .ok (st2, lst)
    | .error e => .error e
  | _ => .error (.runtimeError ("Non-array type encountered when parsing " ++ srcPath))

/-- SchemaConverter.convert_object: the generic tree walker.  The fuel
argument bounds the recursion depth, modelling the Python stack. -/
def convertObjectG {σ : Type} (ct : TypeResolver σ) :
    Nat → σ → JsonValue → String → List String →
    Except PyError (σ × List (String × JsonValue))
  | 0, _, _, _, _ => .error .recursionError
  | Nat.succ fuel, st, o, srcPath, objPath =>
    match o with
    | .obj entries =>
      let sp := if endsWithSlash srcPath then srcPath else srcPath ++ "/"
      exceptFoldl (fun acc kv =>
        if kv.1 = "definitions" ∨ kv.1 = "properties" then
          match convertInnerTypeWith (convertObjectG ct fuel) acc.1 kv.2 (sp ++ kv.1) objPath with
          | .ok (st2, conv) => .ok (st2, dset acc.2 kv.1 (.obj conv))
          | .error e => .error e
        else if kv.1 = "allOf" ∨ kv.1 = "anyOf" ∨ kv.1 = "oneOf" ∨ kv.1 = "not" then
          match convertArrayWith (convertObjectG ct fuel) acc.1 kv.2 (sp ++ kv.1) objPath with
          | .ok (st2, conv) => .ok (st2, dset acc.2 kv.1 (.arr conv))
          | .error e => .error e
        else if kv.1 = "items" then
          match convertObjectG ct fuel acc.1 kv.2 (sp ++ kv.1) objPath with
          | .ok (st2, conv) => .ok (st2, dset acc.2 kv.1 (.obj conv))
          | .error e => .error e
        else if kv.1 = "type" then
          match ct acc.1 kv.2 (sp ++ kv.1) objPath with
          | .ok (st2, pairs) => .ok (st2, dupdate acc.2 pairs)
          | .error e => .error e
        else .ok (acc.1, dset acc.2 kv.1 kv.2)) (st, []) entries
    | _ => .error (.runtimeError ("Non-object type encountered when parsing " ++ srcPath))
  termination_by structural fuel => fuel

/-- A fold over a list in the Option monad that stops at the first
failure; used for the usage-marking loop. -/
def optionFoldl {α β : Type} (f : β → α → Option β) : β → List α → Option β
  | acc, [] => some acc
  | acc, x :: rest =>
    match f acc x with
    | some acc2 => optionFoldl f acc2 rest
    | none => none

/-- Draft4Converter.record_type_usage: depth-first marking of a type and
everything reachable from it in the dependency graph.  The source marks
the node used only AFTER recursing into its dependencees, so the guard
at the top never fires inside a dependency cycle; the fuel argument
models the Python recursion limit, and none models RecursionError. -/
def recordTypeUsage (deps : List (String × List String)) :
    Nat → List String → String → Option (List String)
  | 0, _, _ => none
  | Nat.succ fuel, used, t =>
    if t ∈ used then some used
    else
      match dlookup deps t with
      | some ds =>
        match optionFoldl (fun u d => recordTypeUsage deps fuel u d) used ds with
        | some u2 => some (sadd u2 t)
        | none => none
      | none => some (sadd used t)
  termination_by structural fuel => fuel

/-- The mutable state of Draft4Converter: the working definition set,
the dependency graph and the set of used types. -/
structure D4State where
  definitions : List (String × JsonValue)
  typeDependencies : List (String × List String)
  usedTypes : List String

/-- The dependency-recording branch of Draft4Converter.record_dependency:
setdefault the depender, then add the edge unless it is a self-edge. -/
def daddDependency (deps : List (String × List String)) (depender t : String) :
    List (String × List String) :=
  let deps1 := if (dlookup deps depender).isSome then deps else deps ++ [(depender, [])]
  if depender ≠ t then
    match dlookup deps1 depender with
    | some ds => dset deps1 depender (sadd ds t)
    | none => deps1
  else deps1

/-- Draft4Converter.record_dependency: inside the definitions walk an
edge is recorded; anywhere else the type is marked used. -/
def recordDependency (markFuel : Nat) (st : D4State) (t : String)
    (objPath : List String) : Except PyError D4State :=
  match objPath with
  | p0 :: rest =>
    if p0 = "$definitions" then
      match rest with
      | depender :: _ =>
        .ok { st with typeDependencies := daddDependency st.typeDependencies depender t }
      | [] => .error (.indexError 1)
    else
      match recordTypeUsage st.typeDependencies markFuel st.usedTypes t with
      | some used => .ok { st with usedTypes := used }
      | none => .error .recursionError
  | [] =>
    match recordTypeUsage st.typeDependencies markFuel st.usedTypes t with
    | some used => .ok { st with usedTypes := used }
    | none => .error .recursionError

/-- Draft4Converter.convert_type: numeric aliases collapse to number,
standard tokens stay, known definitions become references. -/
def draft4ConvertType (markFuel : Nat) : TypeResolver D4State := fun st t srcPath objPath =>
  match t with
  | .str s =>
    if s ∈ ["double", "int", "long", "decimal"] then
      .ok (st, [("type", JsonValue.str "number")])
    else if s ∈ JSON_SCHEMA_TYPES then
      .ok (st, [("type", JsonValue.str s)])
    else if (dlookup st.definitions s).isSome then
      match recordDependency markFuel st s objPath with
      | .ok st2 => .ok (st2, [("$ref", JsonValue.str ("#/definitions/" ++ s))])
      | .error e => .error e
    else
      .error (.unknownType
        ("Unrecognized type \"" ++ s ++ "\" encountered when parsing " ++ srcPath) s)
  | _ => .error (.runtimeError ("Non-string type encountered when parsing " ++ srcPath))

/-- The whole Draft4 conversion: merge definitions, convert the
definitions, convert the body, prune unused definitions and assemble
the result under the draft-04 schema header. -/
def draft4Convert (walkFuel markFuel : Nat)
    (schema defsParam : List (String × JsonValue)) :
    Except PyError (List (String × JsonValue)) :=
  match (if defsParam.isEmpty then Except.ok ([] : List (String × JsonValue))
         else mergeDefinitions [] defsParam "json") with
  | .error e => .error e
  | .ok defs0 =>
    match mergeDefinitions defs0 schema "json" with
    | .error e => .error e
    | .ok defs1 =>
      let schema1 := derase (derase schema "definitions") "alt_definitions"
      match convertInnerTypeWith (convertObjectG (draft4ConvertType markFuel) walkFuel)
          ⟨defs1, [], []⟩ (.obj defs1) "/definitions" ["$definitions"] with
      | .error e => .error e
      | .ok (st1, newDefs) =>
        match convertObjectG (draft4ConvertType markFuel) walkFuel
            { st1 with definitions := newDefs } (.obj schema1) "/" [] with
        | .error e => .error e
        | .ok (st3, result) =>
          let defsFinal := st3.definitions.filter (fun kv => st3.usedTypes.contains kv.1)
          let base : List (String × JsonValue) :=
            [("$schema", JsonValue.str "http://json-schema.org/draft-04/schema#")]
          let base1 := if defsFinal.isEmpty then base else dset base "definitions" (.obj defsFinal)
          .ok (dupdate base1 result)

/-- The mutable state of the Mongo converters: the definition set. -/
structure MState where
  definitions : List (String × JsonValue)

/-- Mongo36Converter.convert_type: harmonize integer and boolean, map
native BSON tokens to bsonType, inline known definitions. -/
def mongoConvertType : TypeResolver MState := fun st t srcPath _objPath =>
  match t with
  | .str s =>
    if s = "integer" then .ok (st, [("bsonType", JsonValue.str "int")])
    else if s = "boolean" then .ok (st, [("bsonType", JsonValue.str "bool")])
    else if s ∈ MONGO_BSON_TYPES then .ok (st, [("bsonType", JsonValue.str s)])
    else if s ∈ JSON_SCHEMA_TYPES then .error .assertionError
    else
      match dlookup st.definitions s with
      | some (.obj d) => .ok (st, d)
      | some _ => .error (.typeError ("stored definition for " ++ s ++ " is not an object"))
      | none =>
        .error (.unknownType
          ("Unrecognized type \"" ++ s ++ "\" encountered when parsing " ++ srcPath) s)
  | _ => .error (.runtimeError ("Non-string type encountered when parsing " ++ srcPath))

/-- Python membership test of the string key type in a value; only the
object case is reachable where this is used. -/
def pyContainsType : JsonValue → Bool
  | .obj entries => dcontains entries "type"
  | _ => false

/-- Python subscript v[key]: KeyError when the key is missing,
TypeError on a non-object. -/
def pySubscript (v : JsonValue) (key : String) : Except PyError JsonValue :=
  match v with
  | .obj entries =>
    match dlookup entries key with
    | some x => .ok x
    | none => .error (.keyError key)
  | _ => .error (.typeError "subscript on a non-object value")

/-- Mongo36Converter.process_definitions: convert every definition
through convert_object, falling back once to re-resolving the type
field when the unknown type names the definition itself. -/
def mongoProcessDefinitions (walkFuel : Nat) :
    List (String × JsonValue) → MState → Except PyError MState
  | [], st => .ok st
  | (k, v) :: rest, st =>
    match convertObjectG mongoConvertType walkFuel st v ("/definitions/" ++ k) ["$definitions"] with
    | .ok (st2, conv) =>
      mongoProcessDefinitions walkFuel rest { definitions := dset st2.definitions k (.obj conv) }
    | .error (.unknownType msg n) =>
      if n ≠ k then .error (.unknownType msg n)
      else if (!v.isObj) && pyContainsType v then
        .error (.runtimeError ("Wrong definition in type " ++ k))
      else
        match pySubscript v "type" with
        | .error e => .error e
        | .ok tv =>
          match mongoConvertType st tv ("/definitions/" ++ k) ["$definitions"] with
          | .ok (st3, pairs) =>
            mongoProcessDefinitions walkFuel rest { definitions := dset st3.definitions k (.obj pairs) }
          | .error e => .error e
    | .error e => .error e

/-- The whole Mongo 3.6 conversion: merge and pre-convert definitions,
convert the body, and wrap it under the jsonSchema key. -/
def mongo36Convert (walkFuel : Nat) (schema defsParam : List (String × JsonValue)) :
    Except PyError (List (String × JsonValue)) :=
  match (if defsParam.isEmpty then Except.ok ([] : List (String × JsonValue))
         else mergeDefinitions [] defsParam "mongodb") with
  | .error e => .error e
  | .ok defs0 =>
    match mergeDefinitions defs0 schema "mongodb" with
    | .error e => .error e
    | .ok defs1 =>
      let schema1 := derase (derase schema "definitions") "alt_definitions"
      match mongoProcessDefinitions walkFuel defs1 ⟨[]⟩ with
      | .error e => .error e
      | .ok st =>
        match convertObjectG mongoConvertType walkFuel st (.obj schema1) "/" [] with
        | .error e => .error e
        | .ok (_, result) => .ok [("$jsonSchema", JsonValue.obj result)]

/-- Read the required list of a node (result.get defaulting to the
empty list), demanding string entries as the source type annotations do. -/
def getRequiredNames (entries : List (String × JsonValue)) : Except PyError (List String) :=
  match dlookup entries "required" with
  | none => .ok []
  | some (.arr items) =>
    exceptFoldl (fun acc it =>
      match it with
      | JsonValue.str s => .ok (acc ++ [s])
      | _ => .error (.typeError "non-string entry in required")) [] items
  | some _ => .error (.typeError "required is not an array")

/-- setdefault the path in the flattened result and set its exists flag. -/
def addExists (flat : List (String × List (String × JsonValue))) (path : String) :
    List (String × List (String × JsonValue)) :=
  let entry := (dlookup flat path).getD []
  dset flat path (dset entry "$exists" (JsonValue.bool true))

/-- The middle step of the flattening pass: populate the entry at the
current path from bsonType, pattern and enum, and drop the redundant
exists flag when any of them was set. -/
def applyOps (entries : List (String × JsonValue))
    (flat : List (String × List (String × JsonValue))) (path : String) :
    List (String × List (String × JsonValue)) :=
  let entry0 := (dlookup flat path).getD []
  let p1 : List (String × JsonValue) × Bool :=
    match dlookup entries "bsonType" with
    | some bt => (dset entry0 "$type" bt, false)
    | none => (entry0, true)
  let p2 : List (String × JsonValue) × Bool :=
    match dlookup entries "pattern" with
    | some pt => (dset p1.1 "$regex" pt, false)
    | none => p1
  let p3 : List (String × JsonValue) × Bool :=
    match dlookup entries "enum" with
    | some en => (dset p2.1 "$in" en, false)
    | none => p2
  let entry := if (dlookup p3.1 "$exists").isSome && !p3.2 then derase p3.1 "$exists" else p3.1
  dset flat path entry

/-- Mongo32Converter._flatten_recursively: record an exists assertion
for every required name, populate the entry at the current dotted path,
and recurse only into properties that are also required. -/
def flattenRecursively :
    Nat → JsonValue → List (String × List (String × JsonValue)) → List String →
    Except PyError (List (String × List (String × JsonValue)))
  | 0, _, _, _ => .error .recursionError
  | Nat.succ fuel, node, flat, objPath =>
    match node with
    | .obj entries =>
      match getRequiredNames entries with
      | .error e => .error e
      | .ok req =>
        let flat1 := req.foldl
          (fun f item => addExists f (String.intercalate "." (objPath ++ [item]))) flat
        let path := String.intercalate "." objPath
        let flat2 :=
          if path = "" then flat1
          else if (dlookup flat1 path).isSome then applyOps entries flat1 path
          else flat1
        match dlookup entries "properties" with
        | none => .ok flat2
        | some (.obj pentries) =>
          exceptFoldl (fun f kv =>
            if kv.1 ∈ req then flattenRecursively fuel kv.2 f (objPath ++ [kv.1])
            else .ok f) flat2 pentries
        | some _ => .error (.typeError "properties value is not an object")
    | _ => .error (.typeError "flatten requires an object value")
  termination_by structural fuel => fuel

/-- The whole Mongo 3.2 conversion: the Mongo 3.6 resolution followed by
the flattening pass into a path-to-operators mapping. -/
def mongo32Convert (walkFuel : Nat) (schema defsParam : List (String × JsonValue)) :
    Except PyError (List (String × JsonValue)) :=
  match (if defsParam.isEmpty then Except.ok ([] : List (String × JsonValue))
         else mergeDefinitions [] defsParam "mongodb") with
  | .error e => .error e
  | .ok defs0 =>
    match mergeDefinitions defs0 schema "mongodb" with
    | .error e => .error e
    | .ok defs1 =>
      let schema1 := derase (derase schema "definitions") "alt_definitions"
      match mongoProcessDefinitions walkFuel defs1 ⟨[]⟩ with
      | .error e => .error e
      | .ok st =>
        match convertObjectG mongoConvertType walkFuel st (.obj schema1) "/" [] with
        | .error e => .error e
        | .ok (_, result) =>
          match flattenRecursively walkFuel (.obj result) [] [] with
          | .error e => .error e
          | .ok flat => .ok (flat.map (fun pe => (pe.1, JsonValue.obj pe.2)))

/-! ### Concrete documents used by the claims -/

/-- The round-trip schema: an object requiring property a of type integer. -/
def c1Schema : List (String × JsonValue) :=
  [("type", .str "object"), ("required", .arr [.str "a"]),
   ("properties", .obj [("a", .obj [("type", .str "integer")])])]

/-- A schema whose definitions A and B reference each other in a
two-cycle and whose body references A. -/
def c2Schema : List (String × JsonValue) :=
  [("type", .str "A"),
   ("definitions", .obj
    [("A", .obj [("type", .str "B")]),
     ("B", .obj [("type", .str "A")])])]

/-- The dependency graph that the Draft4 walk builds for c2Schema. -/
def c2CycleDeps : List (String × List String) := [("A", ["B"]), ("B", ["A"])]

/-- Definition Q is referenced only by P, and P is unreferenced from the
body: both should be pruned. -/
def c3aSchema : List (String × JsonValue) :=
  [("type", .str "string"),
   ("definitions", .obj
    [("P", .obj [("type", .str "Q")]),
     ("Q", .obj [("type", .str "string")])])]

/-- The body references A and A references B: both should survive. -/
def c3bSchema : List (String × JsonValue) :=
  [("type", .str "A"),
   ("definitions", .obj
    [("A", .obj [("type", .str "B")]),
     ("B", .obj [("type", .str "string")])])]

/-- Definition S references only itself and is otherwise unused: it
should be pruned, since self-edges are dropped from the graph. -/
def c3cSchema : List (String × JsonValue) :=
  [("type", .str "string"),
   ("definitions", .obj [("S", .obj [("type", .str "S")])])]

/-- A definition body whose type token b is neither recognized nor the
name of the definition a itself. -/
def c4VA : JsonValue := .obj [("type", .str "b")]

/-- A definition k that references itself under properties but whose own
type field is the resolvable token string. -/
def c4VK : JsonValue :=
  .obj [("type", .str "string"),
        ("properties", .obj [("s", .obj [("type", .str "k")])])]

/-- A definition k that is a bare self-alias: the fallback re-raises. -/
def c4VSelf : JsonValue := .obj [("type", .str "k")]

/-- A definition whose items value is not an object: a structural error
that the pre-pass must not catch. -/
def c4VItems : JsonValue := .obj [("items", .str "x")]

/-- A flattening input with a required property a and an optional
property b that itself requires c. -/
def c7Node : JsonValue :=
  .obj [("required", .arr [.str "a"]),
        ("properties", .obj
         [("a", .obj []),
          ("b", .obj [("required", .arr [.str "c"])])])]

/-- Extract the exists flag of the flat entry at path a from a Mongo 3.2
conversion result; used to separate distinct results. -/
def probeExists (r : Except PyError (List (String × JsonValue))) : Option JsonValue :=
  match r with
  | .ok l =>
    match dlookup l "a" with
    | some (.obj ops) => dlookup ops "$exists"
    | _ => none
  | _ => none

/-- A path into a node that is anchored at required names: every segment
is listed in the required list of the node it starts from, and all
segments but the last step through the properties table.  The flattening
pass can only ever create keys of this shape. -/
inductive ReqAnchored : JsonValue → List String → Prop where
  | here {entries req item} :
      getRequiredNames entries = .ok req → item ∈ req →
      ReqAnchored (.obj entries) [item]
  | there {entries req k pentries child p} :
      getRequiredNames entries = .ok req → k ∈ req →
      dlookup entries "properties" = some (.obj pentries) →
      (k, child) ∈ pentries →
      ReqAnchored child p →
      ReqAnchored (.obj entries) (k :: p)

/-! ### Dictionary lemmas -/

theorem dlookup_dset {α : Type} (l : List (String × α)) (k : String) (v : α) (key : String) :
    dlookup (dset l k v) key = if k = key then some v else dlookup l key := by
  induction l with
  | nil => simp [dset, dlookup]
  | cons kv rest ih =>
    obtain ⟨k0, v0⟩ := kv
    by_cases h0 : k0 = k
    · subst h0
      by_cases he : k0 = key <;> simp [dset, dlookup, he]
    · by_cases h : k0 = key
      · subst h
        have hkk : ¬ k = k0 := fun he => h0 he.symm
        simp [dset, h0, dlookup, hkk]
      · simp [dset, h0, dlookup, h, ih]

theorem dlookup_dupdate_none {α : Type} (other : List (String × α)) :
    ∀ base key, dlookup other key = none → dlookup (dupdate base other) key = dlookup base key := by
  induction other with
  | nil => intro base key _; rfl
  | cons kv rest ih =>
    intro base key h
    obtain ⟨k0, v0⟩ := kv
    have hne : ¬ k0 = key := by
      intro he; subst he; simp [dlookup] at h
    have hr : dlookup rest key = none := by
      simpa [dlookup, hne] using h
    show dlookup (dupdate (dset base k0 v0) rest) key = dlookup base key
    rw [ih (dset base k0 v0) key hr, dlookup_dset, if_neg hne]

theorem dlookup_dupdate_isSome {α : Type} (other : List (String × α)) :
    ∀ base key, (dlookup (dupdate base other) key).isSome = true →
      (dlookup base key).isSome = true ∨ (dlookup other key).isSome = true := by
  induction other with
  | nil => intro base key h; exact Or.inl h
  | cons kv rest ih =>
    intro base key h
    obtain ⟨k0, v0⟩ := kv
    rcases ih (dset base k0 v0) key h with h1 | h1
    · rw [dlookup_dset] at h1
      by_cases he : k0 = key
      · exact Or.inr (by simp [dlookup, he])
      · rw [if_neg he] at h1; exact Or.inl h1
    · right
      by_cases he : k0 = key
      · simp [dlookup, he]
      · simp [dlookup, he]
        exact h1

theorem dlookup_derase_none {α : Type} (l : List (String × α)) :
    ∀ x key, dlookup l key = none → dlookup (derase l x) key = none := by
  induction l with
  | nil => intro x key _; rfl
  | cons kv rest ih =>
    intro x key h
    obtain ⟨k0, v0⟩ := kv
    have hne : ¬ k0 = key := by
      intro he; subst he; simp [dlookup] at h
    have hr : dlookup rest key = none := by
      simpa [dlookup, hne] using h
    by_cases hx : k0 = x
    · simpa [derase, hx] using hr
    · simp [derase, hx, dlookup, hne]
      exact ih x key hr

/-! ### C2 helper: the usage marking loops forever on a two-cycle -/

theorem recordTypeUsage_c2_cycle :
    ∀ fuel used, "A" ∉ used → "B" ∉ used →
      recordTypeUsage c2CycleDeps fuel used "A" = none ∧
      recordTypeUsage c2CycleDeps fuel used "B" = none := by
  intro fuel
  induction fuel with
  | zero => intro used _ _; exact ⟨rfl, rfl⟩
  | succ fuel ih =>
    intro used hA hB
    constructor
    · have hB' : recordTypeUsage [("A", ["B"]), ("B", ["A"])] fuel used "B" = none :=
        (ih used hA hB).2
      simp [recordTypeUsage, hA, c2CycleDeps, dlookup, optionFoldl, hB']
    · have hA' : recordTypeUsage [("A", ["B"]), ("B", ["A"])] fuel used "A" = none :=
        (ih used hA hB).1
      simp [recordTypeUsage, hB, c2CycleDeps, dlookup, optionFoldl, hA']

/-! ### Claim theorems -/

/-- C1 counterexample: converting the round-trip schema with target
mongo32 and no external definitions does NOT yield a mapping whose entry
for a carries an exists flag next to the type operator: the flattening
pass deletes the exists flag as soon as the type operator is set. -/
theorem mongo32_roundtrip_claim_false :
    mongo32Convert 20 c1Schema [] ≠
      Except.ok [("a", JsonValue.obj
        [("$exists", JsonValue.bool true), ("$type", JsonValue.str "int")])] := by
  intro h
  exact Option.noConfusion
    (show (none : Option JsonValue) = some (JsonValue.bool true) from
      congrArg probeExists h)

/-- C1 amended: converting the round-trip schema with target mongo32 and
no external definitions yields exactly the one-entry flat mapping whose
entry for a is the single type operator int; the exists flag has been
removed as redundant because a type assertion was recorded. -/
theorem mongo32_roundtrip_drops_exists :
    mongo32Convert 20 c1Schema [] =
      Except.ok [("a", JsonValue.obj [("$type", JsonValue.str "int")])] := rfl

set_option maxRecDepth 8000 in
/-- C2: the claim is right about the intent but the code is wrong: the
usage-marking closure adds a node to the used set only after recursing
into its dependencees, so on a two-cycle referenced from the schema body
the guard never fires and the marking recurses without bound.  For every
recursion budget the marking runs out of fuel, and the whole Draft4
conversion of the cyclic schema ends in the recursion error rather than
in a result (in Python, RecursionError). -/
theorem draft4_usage_marking_cycle_diverges :
    (∀ fuel, recordTypeUsage c2CycleDeps fuel [] "A" = none) ∧
    draft4Convert 10 100 c2Schema [] = .error PyError.recursionError := by
  constructor
  · intro fuel
    exact (recordTypeUsage_c2_cycle fuel []
      (List.not_mem_nil "A") (List.not_mem_nil "B")).1
  · rfl

set_option maxRecDepth 10000 in
/-- C3: Draft4 keeps exactly the definitions reachable from the body in
the three claimed scenarios: a definition referenced only by an
unreferenced definition is removed together with it; a chain of
references starting in the body survives in full; and a definition whose
only reference is itself is removed, because self-edges are dropped. -/
theorem draft4_pruning_scenarios :
    (draft4Convert 10 50 c3aSchema []).map (fun out => dcontains out "definitions") =
      .ok false ∧
    (draft4Convert 10 50 c3bSchema []).map (fun out =>
      match dlookup out "definitions" with
      | some (.obj d) => (dcontains d "A", dcontains d "B")
      | _ => (false, false)) = .ok (true, true) ∧
    (draft4Convert 10 50 c3cSchema []).map (fun out => dcontains out "definitions") =
      .ok false :=
  ⟨rfl, rfl, rfl⟩

/-- C4: in the Mongo definitions pre-pass each definition body goes
through the object converter; an unknown-type failure naming the
definition itself triggers exactly one fallback that re-resolves the
type field of the definition and stores that result (a failure of the
fallback itself propagates, with no second retry), while an
unknown-type failure naming any other type, and every other error,
propagates unchanged and aborts the pre-pass. -/
theorem mongo_defs_prepass_fallback_dispatch :
    (∀ wf k v rest st st2 conv,
      convertObjectG mongoConvertType wf st v ("/definitions/" ++ k) ["$definitions"] =
        .ok (st2, conv) →
      mongoProcessDefinitions wf ((k, v) :: rest) st =
        mongoProcessDefinitions wf rest { definitions := dset st2.definitions k (.obj conv) }) ∧
    (∀ wf k v rest st msg n,
      convertObjectG mongoConvertType wf st v ("/definitions/" ++ k) ["$definitions"] =
        .error (.unknownType msg n) →
      n ≠ k →
      mongoProcessDefinitions wf ((k, v) :: rest) st = .error (.unknownType msg n)) ∧
    (∀ wf k v rest st e,
      convertObjectG mongoConvertType wf st v ("/definitions/" ++ k) ["$definitions"] =
        .error e →
      (∀ msg n, e ≠ .unknownType msg n) →
      mongoProcessDefinitions wf ((k, v) :: rest) st = .error e) ∧
    (∀ wf k entries rest st msg tv st3 pairs,
      convertObjectG mongoConvertType wf st (.obj entries) ("/definitions/" ++ k)
        ["$definitions"] = .error (.unknownType msg k) →
      dlookup entries "type" = some tv →
      mongoConvertType st tv ("/definitions/" ++ k) ["$definitions"] = .ok (st3, pairs) →
      mongoProcessDefinitions wf ((k, .obj entries) :: rest) st =
        mongoProcessDefinitions wf rest { definitions := dset st3.definitions k (.obj pairs) }) ∧
    (∀ wf k entries rest st msg tv e,
      convertObjectG mongoConvertType wf st (.obj entries) ("/definitions/" ++ k)
        ["$definitions"] = .error (.unknownType msg k) →
      dlookup entries "type" = some tv →
      mongoConvertType st tv ("/definitions/" ++ k) ["$definitions"] = .error e →
      mongoProcessDefinitions wf ((k, .obj entries) :: rest) st = .error e) := by
  refine ⟨?_, ?_, ?_, ?_, ?_⟩
  · intro wf k v rest st st2 conv h
    simp only [mongoProcessDefinitions, h]
  · intro wf k v rest st msg n h hn
    simp only [mongoProcessDefinitions, h]
    rw [if_pos hn]
  · intro wf k v rest st e h hne
    cases e with
    | unknownType msg n => exact absurd rfl (hne msg n)
    | runtimeError m => simp only [mongoProcessDefinitions, h]
    | keyError m => simp only [mongoProcessDefinitions, h]
    | typeError m => simp only [mongoProcessDefinitions, h]
    | indexError i => simp only [mongoProcessDefinitions, h]
    | assertionError => simp only [mongoProcessDefinitions, h]
    | recursionError => simp only [mongoProcessDefinitions, h]
  · intro wf k entries rest st msg tv st3 pairs h htv hct
    simp only [mongoProcessDefinitions, h]
    rw [if_neg (fun hh : k ≠ k => hh rfl)]
    simp [JsonValue.isObj, pySubscript, htv, hct]
  · intro wf k entries rest st msg tv e h htv hct
    simp only [mongoProcessDefinitions, h]
    rw [if_neg (fun hh : k ≠ k => hh rfl)]
    simp [JsonValue.isObj, pySubscript, htv, hct]

/-- C4 witness: the four dispatch behaviours at concrete definitions: an
unknown type naming another definition propagates; a structural error
propagates; a self-naming unknown type falls back to the type field and
stores the re-resolved result; and a failing fallback propagates the
second unknown-type error without another retry. -/
theorem mongo_defs_prepass_fallback_dispatch_witness :
    mongoProcessDefinitions 10 [("a", c4VA)] ⟨[]⟩ =
      .error (.unknownType
        "Unrecognized type \"b\" encountered when parsing /definitions/a/type" "b") ∧
    mongoProcessDefinitions 10 [("a2", c4VItems)] ⟨[]⟩ =
      .error (.runtimeError "Non-object type encountered when parsing /definitions/a2/items") ∧
    mongoProcessDefinitions 10 [("k", c4VK)] ⟨[]⟩ =
      .ok ⟨[("k", JsonValue.obj [("bsonType", JsonValue.str "string")])]⟩ ∧
    mongoProcessDefinitions 10 [("k", c4VSelf)] ⟨[]⟩ =
      .error (.unknownType
        "Unrecognized type \"k\" encountered when parsing /definitions/k" "k") :=
  ⟨mongo_defs_prepass_fallback_dispatch.2.1 10 "a" c4VA [] ⟨[]⟩ _ "b" rfl (by decide),
   mongo_defs_prepass_fallback_dispatch.2.2.1 10 "a2" c4VItems [] ⟨[]⟩ _ rfl
     (fun _ _ h => PyError.noConfusion h),
   (mongo_defs_prepass_fallback_dispatch.2.2.2.1 10 "k"
     [("type", JsonValue.str "string"),
      ("properties", JsonValue.obj [("s", JsonValue.obj [("type", JsonValue.str "k")])])]
     [] ⟨[]⟩ _ (JsonValue.str "string") ⟨[]⟩ [("bsonType", JsonValue.str "string")]
     rfl rfl rfl).trans rfl,
   mongo_defs_prepass_fallback_dispatch.2.2.2.2 10 "k"
     [("type", JsonValue.str "k")] [] ⟨[]⟩ _ (JsonValue.str "k") _ rfl rfl rfl⟩

/-- C6: type resolution is table-driven and deterministic for every
call: the Draft4 resolver maps each numeric alias token to the number
type, and the Mongo resolver maps integer to the int BSON type, boolean
to the bool BSON type, and every native BSON token to itself. -/
theorem type_resolution_tables :
    (∀ mf (st : D4State) sp op,
      draft4ConvertType mf st (.str "double") sp op = .ok (st, [("type", JsonValue.str "number")]) ∧
      draft4ConvertType mf st (.str "int") sp op = .ok (st, [("type", JsonValue.str "number")]) ∧
      draft4ConvertType mf st (.str "long") sp op = .ok (st, [("type", JsonValue.str "number")]) ∧
      draft4ConvertType mf st (.str "decimal") sp op = .ok (st, [("type", JsonValue.str "number")])) ∧
    (∀ (st : MState) sp op,
      mongoConvertType st (.str "integer") sp op = .ok (st, [("bsonType", JsonValue.str "int")]) ∧
      mongoConvertType st (.str "boolean") sp op = .ok (st, [("bsonType", JsonValue.str "bool")])) ∧
    (∀ (st : MState) sp op t, t ∈ MONGO_BSON_TYPES →
      mongoConvertType st (.str t) sp op = .ok (st, [("bsonType", JsonValue.str t)])) := by
  refine ⟨fun mf st sp op => ⟨rfl, rfl, rfl, rfl⟩, fun st sp op => ⟨rfl, rfl⟩, ?_⟩
  intro st sp op t ht
  simp only [MONGO_BSON_TYPES] at ht
  fin_cases ht <;> rfl

/-- C6 witness: the tables applied at concrete tokens, in particular the
native BSON token double maps to itself under the Mongo resolver. -/
theorem type_resolution_tables_witness :
    draft4ConvertType 5 ⟨[], [], []⟩ (.str "decimal") "/" [] =
      .ok (⟨[], [], []⟩, [("type", JsonValue.str "number")]) ∧
    mongoConvertType ⟨[]⟩ (.str "double") "/" [] =
      .ok (⟨[]⟩, [("bsonType", JsonValue.str "double")]) :=
  ⟨(type_resolution_tables.1 5 ⟨[], [], []⟩ "/" []).2.2.2,
   type_resolution_tables.2.2 ⟨[]⟩ "/" [] "double" (by decide)⟩

/-- C8: a string type token recognized by neither the target tables nor
the definition set raises the unknown-type error carrying exactly the
offending token, for every target resolver, and converting a schema with
the token bogus aborts with that error and no output document for all
three targets. -/
theorem unknown_type_token_fails :
    (∀ mf (st : D4State) sp op s,
      s ∉ (["double", "int", "long", "decimal"] : List String) →
      s ∉ JSON_SCHEMA_TYPES →
      dlookup st.definitions s = none →
      draft4ConvertType mf st (.str s) sp op =
        .error (.unknownType
          ("Unrecognized type \"" ++ s ++ "\" encountered when parsing " ++ sp) s)) ∧
    (∀ (st : MState) sp op s,
      s ≠ "integer" → s ≠ "boolean" →
      s ∉ MONGO_BSON_TYPES → s ∉ JSON_SCHEMA_TYPES →
      dlookup st.definitions s = none →
      mongoConvertType st (.str s) sp op =
        .error (.unknownType
          ("Unrecognized type \"" ++ s ++ "\" encountered when parsing " ++ sp) s)) ∧
    draft4Convert 10 5 [("type", JsonValue.str "bogus")] [] =
      .error (.unknownType "Unrecognized type \"bogus\" encountered when parsing /type" "bogus") ∧
    mongo36Convert 10 [("type", JsonValue.str "bogus")] [] =
      .error (.unknownType "Unrecognized type \"bogus\" encountered when parsing /type" "bogus") ∧
    mongo32Convert 10 [("type", JsonValue.str "bogus")] [] =
      .error (.unknownType "Unrecognized type \"bogus\" encountered when parsing /type" "bogus") := by
  refine ⟨?_, ?_, rfl, rfl, rfl⟩
  · intro mf st sp op s h1 h2 h3
    simp only [draft4ConvertType]
    rw [if_neg h1, if_neg h2, if_neg (by simp [h3])]
  · intro st sp op s h1 h2 h3 h4 h5
    simp only [mongoConvertType]
    rw [if_neg h1, if_neg h2, if_neg h3, if_neg h4, h5]

/-- C8 witness: both resolvers at the concrete token bogus. -/
theorem unknown_type_token_fails_witness :
    draft4ConvertType 5 ⟨[], [], []⟩ (.str "bogus") "/type" [] =
      .error (.unknownType
        "Unrecognized type \"bogus\" encountered when parsing /type" "bogus") ∧
    mongoConvertType ⟨[]⟩ (.str "bogus") "/type" [] =
      .error (.unknownType
        "Unrecognized type \"bogus\" encountered when parsing /type" "bogus") :=
  ⟨unknown_type_token_fails.1 5 ⟨[], [], []⟩ "/type" [] "bogus"
     (by decide) (by decide) rfl,
   unknown_type_token_fails.2.1 ⟨[]⟩ "/type" [] "bogus"
     (by decide) (by decide) (by decide) (by decide) rfl⟩

/-- C9: a type value that is not a string fails structurally for every
target: both resolvers raise the runtime error about a non-string type
naming the source path, and converting a schema whose type is a list of
type names aborts with that error for all three targets. -/
theorem non_string_type_fails :
    (∀ mf (st : D4State) sp op v, (∀ s, v ≠ JsonValue.str s) →
      draft4ConvertType mf st v sp op =
        .error (.runtimeError ("Non-string type encountered when parsing " ++ sp))) ∧
    (∀ (st : MState) sp op v, (∀ s, v ≠ JsonValue.str s) →
      mongoConvertType st v sp op =
        .error (.runtimeError ("Non-string type encountered when parsing " ++ sp))) ∧
    draft4Convert 10 5 [("type", JsonValue.arr [JsonValue.str "string", JsonValue.str "null"])] [] =
      .error (.runtimeError "Non-string type encountered when parsing /type") ∧
    mongo36Convert 10 [("type", JsonValue.arr [JsonValue.str "string", JsonValue.str "null"])] [] =
      .error (.runtimeError "Non-string type encountered when parsing /type") ∧
    mongo32Convert 10 [("type", JsonValue.arr [JsonValue.str "string", JsonValue.str "null"])] [] =
      .error (.runtimeError "Non-string type encountered when parsing /type") := by
  refine ⟨?_, ?_, rfl, rfl, rfl⟩
  · intro mf st sp op v hv
    cases v with
    | str s => exact absurd rfl (hv s)
    | num n => rfl
    | bool b => rfl
    | null => rfl
    | arr l => rfl
    | obj e => rfl
  · intro st sp op v hv
    cases v with
    | str s => exact absurd rfl (hv s)
    | num n => rfl
    | bool b => rfl
    | null => rfl
    | arr l => rfl
    | obj e => rfl

/-- C9 witness: both resolvers at concrete non-string type values. -/
theorem non_string_type_fails_witness :
    draft4ConvertType 5 ⟨[], [], []⟩ (JsonValue.arr []) "/type" [] =
      .error (.runtimeError "Non-string type encountered when parsing /type") ∧
    mongoConvertType ⟨[]⟩ JsonValue.null "/type" [] =
      .error (.runtimeError "Non-string type encountered when parsing /type") :=
  ⟨non_string_type_fails.1 5 ⟨[], [], []⟩ "/type" [] (JsonValue.arr [])
     (fun _ h => JsonValue.noConfusion h),
   non_string_type_fails.2.1 ⟨[]⟩ "/type" [] JsonValue.null
     (fun _ h => JsonValue.noConfusion h)⟩

/-! ### Preservation and key-shape lemmas about the walker -/

theorem exceptFoldl_preserves {α β γ : Type} (f : β → α → Except PyError β) (π : β → γ)
    (hf : ∀ acc x out, f acc x = .ok out → π out = π acc) :
    ∀ l acc out, exceptFoldl f acc l = .ok out → π out = π acc := by
  intro l
  induction l with
  | nil =>
    intro acc out h
    cases h
    rfl
  | cons x rest ih =>
    intro acc out h
    simp only [exceptFoldl] at h
    cases hx : f acc x with
    | ok acc2 =>
      rw [hx] at h
      exact (ih acc2 out h).trans (hf acc x acc2 hx)
    | error e =>
      rw [hx] at h
      exact Except.noConfusion h

theorem recordDependency_preserves_definitions (mf : Nat) (st : D4State) (t : String)
    (op : List String) (st2 : D4State) (h : recordDependency mf st t op = .ok st2) :
    st2.definitions = st.definitions := by
  cases op with
  | nil =>
    simp only [recordDependency] at h
    split at h
    · cases h; rfl
    · exact Except.noConfusion h
  | cons p0 rest =>
    simp only [recordDependency] at h
    split at h
    · split at h
      · cases h; rfl
      · exact Except.noConfusion h
    · split at h
      · cases h; rfl
      · exact Except.noConfusion h

theorem draft4ConvertType_preserves_definitions (mf : Nat) :
    ∀ st t sp op out, draft4ConvertType mf st t sp op = .ok out →
      out.1.definitions = st.definitions := by
  intro st t sp op out h
  cases t with
  | str s =>
    simp only [draft4ConvertType] at h
    split at h
    · cases h; rfl
    · split at h
      · cases h; rfl
      · split at h
        · split at h
          · rename_i st2 heq
            cases h
            exact recordDependency_preserves_definitions mf st s op st2 heq
          · exact Except.noConfusion h
        · exact Except.noConfusion h
  | num n => exact Except.noConfusion h
  | bool b => exact Except.noConfusion h
  | null => exact Except.noConfusion h
  | arr l => exact Except.noConfusion h
  | obj e => exact Except.noConfusion h

theorem convertInnerTypeWith_preserves {σ γ : Type} (π : σ → γ) (co : ObjectConverter σ)
    (hco : ∀ st o sp op out, co st o sp op = .ok out → π out.1 = π st) :
    ∀ st o sp op out, convertInnerTypeWith co st o sp op = .ok out → π out.1 = π st := by
  intro st o sp op out h
  cases o with
  | obj entries =>
    simp only [convertInnerTypeWith] at h
    refine exceptFoldl_preserves _ (fun acc => π acc.1) ?_ entries (st, []) out h
    intro acc kv out2 hstep
    split at hstep
    · rename_i st2 conv heq
      cases hstep
      exact hco acc.1 kv.2 _ _ (st2, conv) heq
    · exact Except.noConfusion hstep
  | str s => exact Except.noConfusion h
  | num n => exact Except.noConfusion h
  | bool b => exact Except.noConfusion h
  | null => exact Except.noConfusion h
  | arr l => exact Except.noConfusion h

theorem convertArrayWith_preserves {σ γ : Type} (π : σ → γ) (co : ObjectConverter σ)
    (hco : ∀ st o sp op out, co st o sp op = .ok out → π out.1 = π st) :
    ∀ st a sp op out, convertArrayWith co st a sp op = .ok out → π out.1 = π st := by
  intro st a sp op out h
  cases a with
  | arr items =>
    simp only [convertArrayWith] at h
    split at h
    · rename_i st2 lst n heq
      cases h
      refine exceptFoldl_preserves _ (fun acc => π acc.1) ?_ items (st, ([], 0)) (st2, (lst, n)) heq
      intro acc v out2 hstep
      split at hstep
      · rename_i st3 conv heq2
        cases hstep
        exact hco acc.1 v _ _ (st3, conv) heq2
      · exact Except.noConfusion hstep
    · exact Except.noConfusion h
  | str s => exact Except.noConfusion h
  | num n => exact Except.noConfusion h
  | bool b => exact Except.noConfusion h
  | null => exact Except.noConfusion h
  | obj e => exact Except.noConfusion h

theorem convertObjectG_preserves {σ γ : Type} (π : σ → γ) (ct : TypeResolver σ)
    (hct : ∀ st t sp op out, ct st t sp op = .ok out → π out.1 = π st) :
    ∀ fuel st o sp op out, convertObjectG ct fuel st o sp op = .ok out → π out.1 = π st := by
  intro fuel
  induction fuel with
  | zero => intro st o sp op out h; exact Except.noConfusion h
  | succ fuel ih =>
    intro st o sp op out h
    cases o with
    | obj entries =>
      simp only [convertObjectG] at h
      refine exceptFoldl_preserves _ (fun acc => π acc.1) ?_ entries (st, []) out h
      intro acc kv out2 hstep
      split at hstep
      · split at hstep
        · rename_i st2 conv heq
          cases hstep
          exact convertInnerTypeWith_preserves π (convertObjectG ct fuel) ih acc.1 kv.2 _ _ (st2, conv) heq
        · exact Except.noConfusion hstep
      · split at hstep
        · split at hstep
          · rename_i st2 conv heq
            cases hstep
            exact convertArrayWith_preserves π (convertObjectG ct fuel) ih acc.1 kv.2 _ _ (st2, conv) heq
          · exact Except.noConfusion hstep
        · split at hstep
          · split at hstep
            · rename_i st2 conv heq
              cases hstep
              exact ih acc.1 kv.2 _ _ (st2, conv) heq
            · exact Except.noConfusion hstep
          · split at hstep
            · split at hstep
              · rename_i st2 pairs heq
                cases hstep
                exact hct acc.1 kv.2 _ _ (st2, pairs) heq
              · exact Except.noConfusion hstep
            · cases hstep
              rfl
    | str s => exact Except.noConfusion h
    | num n => exact Except.noConfusion h
    | bool b => exact Except.noConfusion h
    | null => exact Except.noConfusion h
    | arr l => exact Except.noConfusion h

theorem dlookup_dset_isSome {α : Type} {l : List (String × α)} {k key : String} {v : α}
    (h : (dlookup (dset l k v) key).isSome = true) :
    key = k ∨ (dlookup l key).isSome = true := by
  rw [dlookup_dset] at h
  by_cases he : k = key
  · exact Or.inl he.symm
  · rw [if_neg he] at h
    exact Or.inr h

theorem dlookup_singleton_isSome {α : Type} {k key : String} {v : α}
    (h : (dlookup [(k, v)] key).isSome = true) : key = k := by
  by_cases he : k = key
  · exact he.symm
  · simp [dlookup, he] at h

theorem dlookup_isSome_of_mem {α : Type} {l : List (String × α)} {x : String × α}
    (h : x ∈ l) : (dlookup l x.1).isSome = true := by
  induction l with
  | nil => cases h
  | cons y rest ih =>
    obtain ⟨k, v⟩ := y
    rcases List.mem_cons.mp h with he | h2
    · subst he
      simp [dlookup]
    · by_cases he : k = x.1
      · simp [dlookup, he]
      · simp only [dlookup, if_neg he]
        exact ih h2

theorem exceptFoldl_keys {σ : Type} (K : String → Prop)
    (f : (σ × List (String × JsonValue)) → (String × JsonValue) →
      Except PyError (σ × List (String × JsonValue)))
    (hf : ∀ acc x out, f acc x = .ok out → ∀ key, (dlookup out.2 key).isSome = true →
      (dlookup acc.2 key).isSome = true ∨ key = x.1 ∨ K key) :
    ∀ entries acc out, exceptFoldl f acc entries = .ok out →
      ∀ key, (dlookup out.2 key).isSome = true →
        (dlookup acc.2 key).isSome = true ∨ (∃ x ∈ entries, key = x.1) ∨ K key := by
  intro entries
  induction entries with
  | nil =>
    intro acc out h key hk
    cases h
    exact Or.inl hk
  | cons x rest ih =>
    intro acc out h key hk
    simp only [exceptFoldl] at h
    cases hx : f acc x with
    | ok acc2 =>
      rw [hx] at h
      rcases ih acc2 out h key hk with h1 | h1 | h1
      · rcases hf acc x acc2 hx key h1 with h2 | h2 | h2
        · exact Or.inl h2
        · exact Or.inr (Or.inl ⟨x, List.mem_cons_self x rest, h2⟩)
        · exact Or.inr (Or.inr h2)
      · obtain ⟨y, hy, hkey⟩ := h1
        exact Or.inr (Or.inl ⟨y, List.mem_cons_of_mem x hy, hkey⟩)
      · exact Or.inr (Or.inr h1)
    | error e =>
      rw [hx] at h
      exact Except.noConfusion h

theorem draft4ConvertType_keys (mf : Nat) (st : D4State) (t : JsonValue) (sp : String)
    (op : List String) (out : D4State × List (String × JsonValue))
    (h : draft4ConvertType mf st t sp op = .ok out) :
    ∀ key, (dlookup out.2 key).isSome = true → key = "type" ∨ key = "$ref" := by
  intro key hk
  cases t with
  | str s =>
    simp only [draft4ConvertType] at h
    split at h
    · cases h
      exact Or.inl (dlookup_singleton_isSome hk)
    · split at h
      · cases h
        exact Or.inl (dlookup_singleton_isSome hk)
      · split at h
        · split at h
          · cases h
            exact Or.inr (dlookup_singleton_isSome hk)
          · exact Except.noConfusion h
        · exact Except.noConfusion h
  | num n => exact Except.noConfusion h
  | bool b => exact Except.noConfusion h
  | null => exact Except.noConfusion h
  | arr l => exact Except.noConfusion h
  | obj e => exact Except.noConfusion h

theorem convertObjectG_draft4_keys (mf fuel : Nat) (st : D4State)
    (entries : List (String × JsonValue)) (sp : String) (op : List String)
    (out : D4State × List (String × JsonValue))
    (h : convertObjectG (draft4ConvertType mf) fuel st (.obj entries) sp op = .ok out) :
    ∀ key, (dlookup out.2 key).isSome = true →
      (dlookup entries key).isSome = true ∨ key = "type" ∨ key = "$ref" := by
  intro key hk
  cases fuel with
  | zero => exact Except.noConfusion h
  | succ fuel =>
    simp only [convertObjectG] at h
    have hmain := exceptFoldl_keys (fun key => key = "type" ∨ key = "$ref") _ ?hf
      entries (st, []) out h key hk
    · rcases hmain with h1 | h1 | h1
      · simp [dlookup] at h1
      · obtain ⟨x, hx, hkey⟩ := h1
        subst hkey
        exact Or.inl (dlookup_isSome_of_mem hx)
      · exact Or.inr h1
    case hf =>
      intro acc kv out2 hstep key2 hk2
      split at hstep
      · split at hstep
        · cases hstep
          rcases dlookup_dset_isSome hk2 with h2 | h2
          · exact Or.inr (Or.inl h2)
          · exact Or.inl h2
        · exact Except.noConfusion hstep
      · split at hstep
        · split at hstep
          · cases hstep
            rcases dlookup_dset_isSome hk2 with h2 | h2
            · exact Or.inr (Or.inl h2)
            · exact Or.inl h2
          · exact Except.noConfusion hstep
        · split at hstep
          · split at hstep
            · cases hstep
              rcases dlookup_dset_isSome hk2 with h2 | h2
              · exact Or.inr (Or.inl h2)
              · exact Or.inl h2
            · exact Except.noConfusion hstep
          · split at hstep
            · split at hstep
              · rename_i st2 pairs heq
                cases hstep
                rcases dlookup_dupdate_isSome pairs acc.2 key2 hk2 with h2 | h2
                · exact Or.inl h2
                · exact Or.inr (Or.inr
                    (draft4ConvertType_keys mf acc.1 kv.2 _ _ (st2, pairs) heq key2 h2))
              · exact Except.noConfusion hstep
            · cases hstep
              rcases dlookup_dset_isSome hk2 with h2 | h2
              · exact Or.inr (Or.inl h2)
              · exact Or.inl h2

/-- C10 counterexample: an input schema that carries its own schema
header key keeps its own value in the output: the conversion of a schema
whose header is the string x yields an output whose header is x, not the
draft-04 identifier, so the output header is not always that identifier. -/
theorem draft4_schema_header_claim_false :
    (draft4Convert 10 5 [("$schema", JsonValue.str "x")] []).map
      (fun out => dlookup out "$schema") = .ok (some (JsonValue.str "x")) ∧
    some (JsonValue.str "x") ≠
      some (JsonValue.str "http://json-schema.org/draft-04/schema#") := by
  refine ⟨rfl, ?_⟩
  intro h
  injection h with h1
  injection h1 with h2
  exact absurd h2 (by decide)

/-- C10 amended: for every input schema WITHOUT a schema header key on
which the Draft4 conversion succeeds, the output contains the header key
mapped to the draft-04 identifier; an input-supplied header value is
copied over instead. -/
theorem draft4_schema_header_amended :
    ∀ wf mf schema defsParam out,
      dlookup schema "$schema" = none →
      draft4Convert wf mf schema defsParam = .ok out →
      dlookup out "$schema" =
        some (JsonValue.str "http://json-schema.org/draft-04/schema#") := by
  intro wf mf schema defsParam out hns h
  simp only [draft4Convert] at h
  split at h
  · exact Except.noConfusion h
  · split at h
    · exact Except.noConfusion h
    · split at h
      · exact Except.noConfusion h
      · split at h
        · exact Except.noConfusion h
        · rename_i st3 result heq4
          cases h
          have hresnone : dlookup result "$schema" = none := by
            cases hres : dlookup result "$schema" with
            | none => rfl
            | some v =>
              have hk : (dlookup result "$schema").isSome = true := by rw [hres]; rfl
              have hsch1 : dlookup (derase (derase schema "definitions")
                  "alt_definitions") "$schema" = none :=
                dlookup_derase_none _ "alt_definitions" "$schema"
                  (dlookup_derase_none _ "definitions" "$schema" hns)
              rcases convertObjectG_draft4_keys mf wf _ _ _ _ (st3, result) heq4
                  "$schema" hk with h1 | h1 | h1
              · rw [hsch1] at h1
                exact Bool.noConfusion h1
              · exact absurd h1 (by decide)
              · exact absurd h1 (by decide)
          rw [dlookup_dupdate_none result _ "$schema" hresnone]
          split
          · rfl
          · rw [dlookup_dset, if_neg (by decide)]
            rfl

/-- C10 witness: the amended statement applied at a schema without a
header key, whose Draft4 output is computed in full. -/
theorem draft4_schema_header_amended_witness :
    dlookup [("$schema", JsonValue.str "http://json-schema.org/draft-04/schema#"),
             ("type", JsonValue.str "string")] "$schema" =
      some (JsonValue.str "http://json-schema.org/draft-04/schema#") :=
  draft4_schema_header_amended 10 5 [("type", JsonValue.str "string")] []
    [("$schema", JsonValue.str "http://json-schema.org/draft-04/schema#"),
     ("type", JsonValue.str "string")] rfl rfl

set_option maxRecDepth 10000 in
/-- C5 counterexample: a schema with no definitions key whose body
references the built-in definition date, converted with the built-in
definitions supplied, produces an output that DOES contain a definitions
key, because the referenced pool entry is marked used and survives
pruning. -/
theorem draft4_no_definitions_claim_false :
    dlookup [("type", JsonValue.str "date")] "definitions" = none ∧
    (draft4Convert 10 5 [("type", JsonValue.str "date")] BUILTIN_DEFINITIONS).map
      (fun out => dcontains out "definitions") = .ok true :=
  ⟨rfl, rfl⟩

/-- C5 amended: for every input schema with no definitions key and no
alternate-definitions key, converted WITHOUT external definitions, the
Draft4 output contains no definitions key; when pooled (built-in or
external) definitions are supplied and the body references one, a
definitions key can appear in the output. -/
theorem draft4_no_definitions_amended :
    ∀ wf mf schema out,
      dlookup schema "definitions" = none →
      dlookup schema "alt_definitions" = none →
      draft4Convert wf mf schema [] = .ok out →
      dlookup out "definitions" = none := by
  intro wf mf schema out hnd hna h
  simp only [draft4Convert] at h
  split at h
  · exact Except.noConfusion h
  · rename_i defs0 heq1
    split at h
    · exact Except.noConfusion h
    · rename_i defs1 heq2
      split at h
      · exact Except.noConfusion h
      · rename_i st1 newDefs heq3
        split at h
        · exact Except.noConfusion h
        · rename_i st3 result heq4
          cases h
          have hd0 : defs0 = [] := by
            have hred : (if ([] : List (String × JsonValue)).isEmpty then
                  Except.ok ([] : List (String × JsonValue))
                else mergeDefinitions [] [] "json") =
                Except.ok ([] : List (String × JsonValue)) := rfl
            rw [hred] at heq1
            injection heq1 with hh
            exact hh.symm
          subst hd0
          have hd1 : defs1 = [] := by
            simp only [mergeDefinitions, hnd, hna] at heq2
            injection heq2 with hh
            exact hh.symm
          subst hd1
          have h3 : newDefs = [] := by
            have hred : convertInnerTypeWith (convertObjectG (draft4ConvertType mf) wf)
                (⟨[], [], []⟩ : D4State) (.obj []) "/definitions" ["$definitions"] =
                .ok ((⟨[], [], []⟩ : D4State), ([] : List (String × JsonValue))) := rfl
            rw [hred] at heq3
            injection heq3 with hh
            exact congrArg Prod.snd hh.symm
          have hst3 : st3.definitions = [] := by
            have hpres : st3.definitions =
                ({ st1 with definitions := newDefs } : D4State).definitions :=
              convertObjectG_preserves (fun s => s.definitions) (draft4ConvertType mf)
                (draft4ConvertType_preserves_definitions mf) wf _ _ _ _
                (st3, result) heq4
            rw [hpres]
            exact h3
          have hresnone : dlookup result "definitions" = none := by
            cases hres : dlookup result "definitions" with
            | none => rfl
            | some v =>
              have hk : (dlookup result "definitions").isSome = true := by rw [hres]; rfl
              have hsch1 : dlookup (derase (derase schema "definitions")
                  "alt_definitions") "definitions" = none :=
                dlookup_derase_none _ "alt_definitions" "definitions"
                  (dlookup_derase_none _ "definitions" "definitions" hnd)
              rcases convertObjectG_draft4_keys mf wf _ _ _ _ (st3, result) heq4
                  "definitions" hk with h1 | h1 | h1
              · rw [hsch1] at h1
                exact Bool.noConfusion h1
              · exact absurd h1 (by decide)
              · exact absurd h1 (by decide)
          rw [hst3]
          rw [dlookup_dupdate_none result _ "definitions" hresnone]
          rfl

/-- C5 witness: the amended statement applied at a schema with no
definitions key and no external pool, whose output is computed in full. -/
theorem draft4_no_definitions_amended_witness :
    dlookup [("$schema", JsonValue.str "http://json-schema.org/draft-04/schema#"),
             ("type", JsonValue.str "string")] "definitions" = none :=
  draft4_no_definitions_amended 10 5 [("type", JsonValue.str "string")]
    [("$schema", JsonValue.str "http://json-schema.org/draft-04/schema#"),
     ("type", JsonValue.str "string")] rfl rfl rfl

/-! ### Flattening lemmas -/

theorem addExists_isSome {flat : List (String × List (String × JsonValue))} {p key : String}
    (h : (dlookup (addExists flat p) key).isSome = true) :
    key = p ∨ (dlookup flat key).isSome = true := by
  simp only [addExists] at h
  exact dlookup_dset_isSome h

theorem applyOps_isSome {entries : List (String × JsonValue)}
    {flat : List (String × List (String × JsonValue))} {p key : String}
    (h : (dlookup (applyOps entries flat p) key).isSome = true) :
    key = p ∨ (dlookup flat key).isSome = true := by
  simp only [applyOps] at h
  exact dlookup_dset_isSome h

theorem foldl_addExists_isSome (objPath : List String) :
    ∀ (req : List String) flat key,
      (dlookup (req.foldl (fun f item =>
        addExists f (String.intercalate "." (objPath ++ [item]))) flat) key).isSome = true →
      (dlookup flat key).isSome = true ∨
        ∃ item ∈ req, key = String.intercalate "." (objPath ++ [item]) := by
  intro req
  induction req with
  | nil => intro flat key h; exact Or.inl h
  | cons item rest ih =>
    intro flat key h
    rw [List.foldl_cons] at h
    rcases ih (addExists flat (String.intercalate "." (objPath ++ [item]))) key h with h1 | h1
    · rcases addExists_isSome h1 with h2 | h2
      · exact Or.inr ⟨item, List.mem_cons_self item rest, h2⟩
      · exact Or.inl h2
    · obtain ⟨it, hit, hkeq⟩ := h1
      exact Or.inr ⟨it, List.mem_cons_of_mem item hit, hkeq⟩

theorem flat2_isSome {entries : List (String × JsonValue)} {path : String}
    {flat1 : List (String × List (String × JsonValue))} {key : String}
    (hk : (dlookup (if path = "" then flat1
      else if (dlookup flat1 path).isSome then applyOps entries flat1 path
      else flat1) key).isSome = true) :
    (dlookup flat1 key).isSome = true := by
  split at hk
  · exact hk
  · split at hk
    · rename_i hguard
      rcases applyOps_isSome hk with h1 | h1
      · subst h1
        exact hguard
      · exact h1
    · exact hk

theorem flattenProps_fold_isSome (fuel : Nat)
    (IH : ∀ node flat objPath res, flattenRecursively fuel node flat objPath = .ok res →
      ∀ key, (dlookup res key).isSome = true →
        (dlookup flat key).isSome = true ∨
        ∃ chain, ReqAnchored node chain ∧
          key = String.intercalate "." (objPath ++ chain))
    (req : List String) (objPath : List String) :
    ∀ pentries flat res,
      exceptFoldl (fun f kv =>
        if kv.1 ∈ req then flattenRecursively fuel kv.2 f (objPath ++ [kv.1])
        else .ok f) flat pentries = .ok res →
      ∀ key, (dlookup res key).isSome = true →
        (dlookup flat key).isSome = true ∨
        ∃ k child chain, (k, child) ∈ pentries ∧ k ∈ req ∧ ReqAnchored child chain ∧
          key = String.intercalate "." (objPath ++ k :: chain) := by
  intro pentries
  induction pentries with
  | nil =>
    intro flat res h key hk
    cases h
    exact Or.inl hk
  | cons kv rest ihp =>
    intro flat res h key hk
    simp only [exceptFoldl] at h
    by_cases hkreq : kv.1 ∈ req
    · rw [if_pos hkreq] at h
      cases hstep : flattenRecursively fuel kv.2 flat (objPath ++ [kv.1]) with
      | error e =>
        rw [hstep] at h
        exact Except.noConfusion h
      | ok flatNext =>
        rw [hstep] at h
        rcases ihp flatNext res h key hk with h1 | h1
        · rcases IH kv.2 flat (objPath ++ [kv.1]) flatNext hstep key h1 with h2 | h2
          · exact Or.inl h2
          · obtain ⟨chain, hanch, hkeq⟩ := h2
            simp only [List.append_assoc, List.singleton_append] at hkeq
            exact Or.inr ⟨kv.1, kv.2, chain, List.mem_cons_self kv rest, hkreq, hanch, hkeq⟩
        · obtain ⟨k, child, chain, hmem, hkr, hanch, hkeq⟩ := h1
          exact Or.inr ⟨k, child, chain, List.mem_cons_of_mem kv hmem, hkr, hanch, hkeq⟩
    · rw [if_neg hkreq] at h
      rcases ihp flat res h key hk with h1 | h1
      · exact Or.inl h1
      · obtain ⟨k, child, chain, hmem, hkr, hanch, hkeq⟩ := h1
        exact Or.inr ⟨k, child, chain, List.mem_cons_of_mem kv hmem, hkr, hanch, hkeq⟩

/-- C7: the Mongo 3.2 flattening pass reaches only the required subtree:
every key of the flattened result that was not already in the
accumulator is the dotted join of a path anchored at required names, so
constraints inside a property not listed in required, including required
sub-fields nested under an optional property, contribute no entries. -/
theorem mongo32_flatten_only_required_subtree :
    ∀ fuel node flat objPath res,
      flattenRecursively fuel node flat objPath = .ok res →
      ∀ key, (dlookup res key).isSome = true →
        (dlookup flat key).isSome = true ∨
        ∃ chain, ReqAnchored node chain ∧
          key = String.intercalate "." (objPath ++ chain) := by
  intro fuel
  induction fuel with
  | zero =>
    intro node flat objPath res h
    exact Except.noConfusion h
  | succ fuel ih =>
    intro node flat objPath res h key hk
    cases node with
    | obj entries =>
      simp only [flattenRecursively] at h
      split at h
      · exact Except.noConfusion h
      · rename_i req hreq
        split at h
        · cases h
          rcases flat2_isSome hk with h1
          rcases foldl_addExists_isSome objPath req flat key h1 with h2 | h2
          · exact Or.inl h2
          · obtain ⟨item, hitem, hkeq⟩ := h2
            exact Or.inr ⟨[item], ReqAnchored.here hreq hitem, hkeq⟩
        · rename_i pentries heqp
          rcases flattenProps_fold_isSome fuel ih req objPath pentries _ res h key hk
            with h1 | h1
          · rcases flat2_isSome h1 with h2
            rcases foldl_addExists_isSome objPath req flat key h2 with h3 | h3
            · exact Or.inl h3
            · obtain ⟨item, hitem, hkeq⟩ := h3
              exact Or.inr ⟨[item], ReqAnchored.here hreq hitem, hkeq⟩
          · obtain ⟨k, child, chain, hmem, hkr, hanch, hkeq⟩ := h1
            exact Or.inr ⟨k :: chain, ReqAnchored.there hreq hkr heqp hmem hanch, hkeq⟩
        · exact Except.noConfusion h
    | str s => exact Except.noConfusion h
    | num n => exact Except.noConfusion h
    | bool b => exact Except.noConfusion h
    | null => exact Except.noConfusion h
    | arr l => exact Except.noConfusion h

/-- C7 witness: flattening the example with a required property a and an
optional property b that itself requires c yields only the entry for a,
and the theorem applied there produces the anchored chain for a. -/
theorem mongo32_flatten_only_required_subtree_witness :
    flattenRecursively 10 c7Node [] [] =
      .ok [("a", [("$exists", JsonValue.bool true)])] ∧
    (∃ chain, ReqAnchored c7Node chain ∧
      "a" = String.intercalate "." (([] : List String) ++ chain)) := by
  constructor
  · rfl
  · have h := mongo32_flatten_only_required_subtree 10 c7Node [] []
      [("a", [("$exists", JsonValue.bool true)])] rfl "a" rfl
    rcases h with h1 | h1
    · exact Bool.noConfusion h1
    · exact h1
